import Mathlib

/-
  Verification development for a client-side raster image editor.

  The repository contains three snapshots of the same editor component.
  The definitions below are shallow embeddings of its pixel-editing core:
  the crop-rectangle drag state machine (handlePointerMove of the v2.1.0
  snapshot, handleMove of the v1.2.0 snapshot, handleMoveWithMode of the
  v1.3.0 snapshot), the mosaic/blur obfuscation filter (applyMosaicEffect),
  the eraser branch of the stroke handler (draw), and the crop commit
  (applyCrop).  Percent coordinates and canvas coordinates are embedded as
  rationals; pixel channel values as naturals.  Canvas rasterization of a
  circular clip or arc fill is idealized as exact disk membership, and
  rectangle fills as half-open integer boxes; both are exact for the
  integral rectangles the claims are about.
-/

namespace PhotoEditor

/-- Color holds one RGBA pixel; channels are byte values 0..255 in the
    canvas ImageData encoding. -/
structure Color where
  r : ℕ
  g : ℕ
  b : ℕ
  a : ℕ
deriving DecidableEq

/-- Surface is the BitmapSurface data model: a pixel buffer of the given
    dimensions.  The pix function is total; only coordinates below the
    dimensions are meaningful. -/
structure Surface where
  width : ℕ
  height : ℕ
  pix : ℕ → ℕ → Color

/-- CropRect is the crop rectangle in percent of the display box,
    as held in the cropRect React state. -/
structure CropRect where
  x : ℚ
  y : ℚ
  w : ℚ
  h : ℚ
deriving DecidableEq

/-- HandleType of the v2.1.0 snapshot: the 8 drag handles of its
    CropOverlay (4 edges and 4 corners; that snapshot has no move mode). -/
inductive HandleType where
  | tl | tr | bl | br | t | b | l | r
deriving DecidableEq

/-- Mode of the v1.2.0 snapshot CropOverlay: move plus the 8 handles. -/
inductive MoveMode where
  | move | tl | tr | bl | br | t | b | l | r
deriving DecidableEq

/-- handlePointerMove of the v2.1.0 snapshot (case analysis on the active
    handle, lines 441-482 of the first snapshot): given the anchored rect
    startRectRef and the pointer delta in percent, produce the new rect.
    minSize is 1 as in the source. -/
def handlePointerMove (start : CropRect) (handle : HandleType) (dX dY : ℚ) : CropRect :=
  let minSize : ℚ := 1
  match handle with
  | HandleType.l =>
      let newXL := min (max 0 (start.x + dX)) (start.x + start.w - minSize)
      { start with x := newXL, w := start.w - (newXL - start.x) }
  | HandleType.r =>
      { start with w := max minSize (min (100 - start.x) (start.w + dX)) }
  | HandleType.t =>
      let newYT := min (max 0 (start.y + dY)) (start.y + start.h - minSize)
      { start with y := newYT, h := start.h - (newYT - start.y) }
  | HandleType.b =>
      { start with h := max minSize (min (100 - start.y) (start.h + dY)) }
  | HandleType.tl =>
      let newXTL := min (max 0 (start.x + dX)) (start.x + start.w - minSize)
      let newYTL := min (max 0 (start.y + dY)) (start.y + start.h - minSize)
      { start with x := newXTL, w := start.w - (newXTL - start.x),
                   y := newYTL, h := start.h - (newYTL - start.y) }
  | HandleType.tr =>
      let newYTR := min (max 0 (start.y + dY)) (start.y + start.h - minSize)
      { start with w := max minSize (min (100 - start.x) (start.w + dX)),
                   y := newYTR, h := start.h - (newYTR - start.y) }
  | HandleType.bl =>
      let newXBL := min (max 0 (start.x + dX)) (start.x + start.w - minSize)
      { start with x := newXBL, w := start.w - (newXBL - start.x),
                   h := max minSize (min (100 - start.y) (start.h + dY)) }
  | HandleType.br =>
      { start with w := max minSize (min (100 - start.x) (start.w + dX)),
                   h := max minSize (min (100 - start.y) (start.h + dY)) }

/-- handleMove of the v1.2.0 snapshot (lines 976-1028 of the second
    snapshot in the same file): delta-based update against the anchored
    startRect, with a move mode.  minSize is 5 as in the source.  The side
    and corner branches that move the left or top edge are written with the
    effectiveDX / effectiveDY clamping of that snapshot. -/
def handleMove (start : CropRect) (mode : MoveMode) (dX dY : ℚ) : CropRect :=
  let minSize : ℚ := 5
  match mode with
  | MoveMode.move =>
      { start with x := max 0 (min (100 - start.w) (start.x + dX)),
                   y := max 0 (min (100 - start.h) (start.y + dY)) }
  | MoveMode.br =>
      { start with w := max minSize (min (100 - start.x) (start.w + dX)),
                   h := max minSize (min (100 - start.y) (start.h + dY)) }
  | MoveMode.bl =>
      let effectiveDX := max (-start.x) (min (start.w - minSize) dX)
      { start with x := start.x + effectiveDX, w := start.w - effectiveDX,
                   h := max minSize (min (100 - start.y) (start.h + dY)) }
  | MoveMode.tr =>
      let effectiveDY := max (-start.y) (min (start.h - minSize) dY)
      { start with w := max minSize (min (100 - start.x) (start.w + dX)),
                   y := start.y + effectiveDY, h := start.h - effectiveDY }
  | MoveMode.tl =>
      let effectiveDX := max (-start.x) (min (start.w - minSize) dX)
      let effectiveDY := max (-start.y) (min (start.h - minSize) dY)
      { start with x := start.x + effectiveDX, w := start.w - effectiveDX,
                   y := start.y + effectiveDY, h := start.h - effectiveDY }
  | MoveMode.r =>
      { start with w := max minSize (min (100 - start.x) (start.w + dX)) }
  | MoveMode.l =>
      let effectiveDX := max (-start.x) (min (start.w - minSize) dX)
      { start with x := start.x + effectiveDX, w := start.w - effectiveDX }
  | MoveMode.b =>
      { start with h := max minSize (min (100 - start.y) (start.h + dY)) }
  | MoveMode.t =>
      let effectiveDY := max (-start.y) (min (start.h - minSize) dY)
      { start with y := start.y + effectiveDY, h := start.h - effectiveDY }

/-- handleMoveWithMode of the v1.3.0 snapshot, move branch (lines 503-506
    of that file): delta-based clamped translation against the anchored
    startRectRef; width and height fields are untouched. -/
def handleMoveWithMode (start : CropRect) (dX dY : ℚ) : CropRect :=
  { start with x := max 0 (min (100 - start.w) (start.x + dX)),
               y := max 0 (min (100 - start.h) (start.y + dY)) }

/-- specClamp transcribes the clamp(v, lo, hi) notation used by the spec
    for the move rule: clamp v into the interval from lo to hi. -/
def specClamp (v lo hi : ℚ) : ℚ := max lo (min hi v)

/-- cropValid states the CropRect invariant of the spec for a given
    minimum size: the rectangle stays inside the 0..100 box on both axes
    and never shrinks below minSize on either axis. -/
def cropValid (minSize : ℚ) (rect : CropRect) : Prop :=
  0 ≤ rect.x ∧ 0 ≤ rect.y ∧ rect.x + rect.w ≤ 100 ∧ rect.y + rect.h ≤ 100 ∧
    minSize ≤ rect.w ∧ minSize ≤ rect.h

instance (minSize : ℚ) (rect : CropRect) : Decidable (cropValid minSize rect) := by
  unfold cropValid; infer_instance

/-- fullFrame is the full-frame reset rectangle set on entering crop mode. -/
def fullFrame : CropRect := { x := 0, y := 0, w := 100, h := 100 }

/-- dragFold folds a sequence of pointer-move updates of the v2.1.0
    snapshot over an initial rectangle: each step is one handlePointerMove
    against the rectangle current at that step (the anchor of its session). -/
def dragFold (init : CropRect) (steps : List (HandleType × ℚ × ℚ)) : CropRect :=
  steps.foldl (fun rect s => handlePointerMove rect s.1 s.2.1 s.2.2) init

/-- moveFold is dragFold for the v1.2.0 snapshot handleMove. -/
def moveFold (init : CropRect) (steps : List (MoveMode × ℚ × ℚ)) : CropRect :=
  steps.foldl (fun rect s => handleMove rect s.1 s.2.1 s.2.2) init

/-- dragSession models one continuous crop drag session of the v2.1.0
    snapshot: the anchor rectangle is snapshotted at pointer-down, and every
    pointer move recomputes the rectangle from the anchor, so the final
    rectangle of the session is determined by the last pointer delta alone
    (or is the anchor itself when no move fires). -/
def dragSession (anchor : CropRect) (handle : HandleType) (moves : List (ℚ × ℚ)) : CropRect :=
  moves.foldl (fun _ d => handlePointerMove anchor handle d.1 d.2) anchor

/-- MosaicType is the mosaicType tool setting: block pixel mode or blur
    smear mode. -/
inductive MosaicType where
  | pixel | blur
deriving DecidableEq

/-- imageData embeds ctx.getImageData(sx, sy, w, h): the RGBA bytes of the
    w by h rectangle at (sx, sy), row major, four entries per pixel. -/
def imageData (s : Surface) (sx sy w h : ℕ) : List ℕ :=
  (List.range (w * h)).flatMap fun p =>
    [(s.pix (sx + p % w) (sy + p / w)).r,
     (s.pix (sx + p % w) (sy + p / w)).g,
     (s.pix (sx + p % w) (sy + p / w)).b,
     (s.pix (sx + p % w) (sy + p / w)).a]

/-- strideChannels embeds the averaging loop of applyMosaicEffect:
    for i from 0 below data.length stepping by 16, accumulate
    data at i, i+1, i+2 into the r, g, b sums and bump count.
    The result is the tuple of r sum, g sum, b sum and count. -/
def strideChannels (data : List ℕ) : ℕ × ℕ × ℕ × ℕ :=
  (List.range ((data.length + 15) / 16)).foldl
    (fun acc k =>
      (acc.1 + data.getD (16 * k) 0,
       acc.2.1 + data.getD (16 * k + 1) 0,
       acc.2.2.1 + data.getD (16 * k + 2) 0,
       acc.2.2.2 + 1))
    (0, 0, 0, 0)

/-- mosaicColor embeds the fill-color computation of applyMosaicEffect:
    the guarded integer means of the stride-16 channel sums. -/
def mosaicColor (data : List ℕ) : ℕ × ℕ × ℕ :=
  let acc := strideChannels data
  if 0 < acc.2.2.2 then
    (acc.1 / acc.2.2.2, acc.2.1 / acc.2.2.2, acc.2.2.1 / acc.2.2.2)
  else
    (acc.1, acc.2.1, acc.2.2.1)

/-- mosaicStart embeds the sample-origin computation of applyMosaicEffect
    on one axis: grid snap for pixel mode, recentering for blur mode, then
    the clamp of negative starts to 0. -/
def mosaicStart (v : ℚ) (effectSize : ℚ) (t : MosaicType) : ℚ :=
  let start0 : ℚ :=
    match t with
    | MosaicType.pixel => (⌊v / effectSize⌋ : ℚ) * effectSize
    | MosaicType.blur => v - effectSize / 2
  if start0 < 0 then 0 else start0

/-- applyMosaicEffect of the v2.1.0 snapshot (lines 158-208): effectSize is
    size times 4; compute the clamped sample origin, the clamped sample
    rectangle, return unchanged when the sample is empty, otherwise average
    the sample with the stride-16 loop and fill either the effectSize
    square at the sample origin (pixel mode) or the disk of radius
    effectSize / 2 around the pointer (blur mode) with the flat color.
    getImageData argument coercion to integers is embedded as floor, exact
    for the nonnegative integral values the guard admits; the arc fill is
    idealized as exact disk membership. -/
def applyMosaicEffect (s : Surface) (x y : ℚ) (size : ℕ) (t : MosaicType) : Surface :=
  let effectSize : ℚ := (size : ℚ) * 4
  let startX : ℚ := mosaicStart x effectSize t
  let startY : ℚ := mosaicStart y effectSize t
  let sampleW : ℚ := min effectSize ((s.width : ℚ) - startX)
  let sampleH : ℚ := min effectSize ((s.height : ℚ) - startY)
  if sampleW ≤ 0 ∨ sampleH ≤ 0 then s
  else
    let c := mosaicColor (imageData s (Int.toNat ⌊startX⌋) (Int.toNat ⌊startY⌋)
      (Int.toNat ⌊sampleW⌋) (Int.toNat ⌊sampleH⌋))
    match t with
    | MosaicType.pixel =>
      { s with pix := fun px py =>
          if startX ≤ (px : ℚ) ∧ (px : ℚ) < startX + effectSize ∧
             startY ≤ (py : ℚ) ∧ (py : ℚ) < startY + effectSize
          then { r := c.1, g := c.2.1, b := c.2.2, a := 255 }
          else s.pix px py }
    | MosaicType.blur =>
      { s with pix := fun px py =>
          if ((px : ℚ) - x) ^ 2 + ((py : ℚ) - y) ^ 2 ≤ (effectSize / 2) ^ 2
          then { r := c.1, g := c.2.1, b := c.2.2, a := 255 }
          else s.pix px py }

/-- eraserDraw embeds the eraser branch of draw (lines 245-256 of the
    v2.1.0 snapshot): when an original image exists, clip the disk of
    radius brushSize times 5 around the pointer and redraw the original
    inside it; when it is absent the branch does not run and the surface
    is untouched.  The circular clip is idealized as exact disk
    membership. -/
def eraserDraw (bmp : Surface) (original : Option Surface) (x y : ℚ) (brushSize : ℕ) : Surface :=
  match original with
  | none => bmp
  | some o =>
      { bmp with pix := fun px py =>
          if ((px : ℚ) - x) ^ 2 + ((py : ℚ) - y) ^ 2 ≤ ((brushSize * 5 : ℕ) : ℚ) ^ 2
          then o.pix px py
          else bmp.pix px py }

/-- applyCrop of the v2.1.0 snapshot (lines 265-290): convert the percent
    CropRect to absolute pixel bounds against the current canvas
    dimensions, and extract that sub-rectangle into a new surface (the new
    canvas dimensions are the crop dimensions and its pixels are read at
    the crop offset).  Assignment of the rational bounds to integer canvas
    dimensions is embedded as floor, exact for the integral values of the
    claims; sub-pixel resampling of a fractional source rectangle is
    idealized as the integer offset copy. -/
def applyCrop (s : Surface) (rect : CropRect) : Surface :=
  let cropX : ℚ := rect.x / 100 * (s.width : ℚ)
  let cropY : ℚ := rect.y / 100 * (s.height : ℚ)
  let cropW : ℚ := rect.w / 100 * (s.width : ℚ)
  let cropH : ℚ := rect.h / 100 * (s.height : ℚ)
  { width := Int.toNat ⌊cropW⌋,
    height := Int.toNat ⌊cropH⌋,
    pix := fun px py => s.pix (px + Int.toNat ⌊cropX⌋) (py + Int.toNat ⌊cropY⌋) }

/-- demoSurface is a concrete 200 by 100 surface used by the witnesses,
    matching the scenario image of the spec. -/
def demoSurface : Surface :=
  { width := 200, height := 100, pix := fun _ _ => { r := 120, g := 80, b := 40, a := 255 } }

/-- smallSurface is a concrete 10 by 10 surface used by the witnesses. -/
def smallSurface : Surface :=
  { width := 10, height := 10, pix := fun _ _ => { r := 1, g := 2, b := 3, a := 255 } }

/-- origSurface is a concrete original snapshot used by the eraser
    witness, with pixel content different from smallSurface. -/
def origSurface : Surface :=
  { width := 10, height := 10, pix := fun _ _ => { r := 9, g := 8, b := 7, a := 255 } }

/-- ruleR_bounds is the shared bound analysis for the right and bottom
    edge rules: the clamped new extent keeps the minimum size and keeps
    the far edge inside the box. -/
theorem ruleR_bounds (x w dX m : ℚ) (h1 : x + w ≤ 100) (h2 : m ≤ w) :
    m ≤ max m (min (100 - x) (w + dX)) ∧ x + max m (min (100 - x) (w + dX)) ≤ 100 := by
  refine ⟨le_max_left _ _, ?_⟩
  have hm : m ≤ 100 - x := by linarith
  have hle : max m (min (100 - x) (w + dX)) ≤ 100 - x := max_le hm (min_le_left _ _)
  linarith

/-- ruleL_bounds is the shared bound analysis for the left and top edge
    rules of the v2.1.0 snapshot: the clamped new edge stays nonnegative,
    the far edge is unchanged, and the extent keeps the minimum size. -/
theorem ruleL_bounds (x w dX m : ℚ) (h0 : 0 ≤ x) (h1 : x + w ≤ 100) (h2 : m ≤ w) :
    0 ≤ min (max 0 (x + dX)) (x + w - m) ∧
    min (max 0 (x + dX)) (x + w - m) + (w - (min (max 0 (x + dX)) (x + w - m) - x)) ≤ 100 ∧
    m ≤ w - (min (max 0 (x + dX)) (x + w - m) - x) := by
  set nx := min (max 0 (x + dX)) (x + w - m) with hnx
  have hub : nx ≤ x + w - m := min_le_right _ _
  have hlb : 0 ≤ nx := le_min (le_max_left _ _) (by linarith)
  exact ⟨hlb, by linarith, by linarith⟩

/-- ruleE_bounds is the shared bound analysis for the effectiveDX and
    effectiveDY clamping of the v1.2.0 snapshot left and top rules. -/
theorem ruleE_bounds (x w d m : ℚ) (h0 : 0 ≤ x) (h1 : x + w ≤ 100) (h2 : m ≤ w) :
    0 ≤ x + max (-x) (min (w - m) d) ∧
    (x + max (-x) (min (w - m) d)) + (w - max (-x) (min (w - m) d)) ≤ 100 ∧
    m ≤ w - max (-x) (min (w - m) d) := by
  set e := max (-x) (min (w - m) d) with he
  have h3 : -x ≤ e := le_max_left _ _
  have h4 : e ≤ w - m := max_le (by linarith) (min_le_left _ _)
  exact ⟨by linarith, by linarith, by linarith⟩

/-- ruleMove_bounds is the bound analysis for the clamped translation of
    the move rule. -/
theorem ruleMove_bounds (x w d : ℚ) (h0 : 0 ≤ x) (h1 : x + w ≤ 100) :
    0 ≤ max 0 (min (100 - w) (x + d)) ∧ max 0 (min (100 - w) (x + d)) + w ≤ 100 := by
  have h2 : max 0 (min (100 - w) (x + d)) ≤ 100 - w := max_le (by linarith) (min_le_left _ _)
  exact ⟨le_max_left _ _, by linarith⟩

/-- handlePointerMove_preserves: one pointer-move update of the v2.1.0
    snapshot maps a rectangle satisfying the invariant with minSize 1 to
    another such rectangle, whatever the handle and the delta. -/
theorem handlePointerMove_preserves (r : CropRect) (handle : HandleType) (dX dY : ℚ)
    (hv : cropValid 1 r) : cropValid 1 (handlePointerMove r handle dX dY) := by
  obtain ⟨hx, hy, hxw, hyh, hw, hh⟩ := hv
  cases handle with
  | l =>
      obtain ⟨a, b, c⟩ := ruleL_bounds r.x r.w dX 1 hx hxw hw
      exact ⟨a, hy, b, hyh, c, hh⟩
  | r =>
      obtain ⟨a, b⟩ := ruleR_bounds r.x r.w dX 1 hxw hw
      exact ⟨hx, hy, b, hyh, a, hh⟩
  | t =>
      obtain ⟨a, b, c⟩ := ruleL_bounds r.y r.h dY 1 hy hyh hh
      exact ⟨hx, a, hxw, b, hw, c⟩
  | b =>
      obtain ⟨a, b⟩ := ruleR_bounds r.y r.h dY 1 hyh hh
      exact ⟨hx, hy, hxw, b, hw, a⟩
  | tl =>
      obtain ⟨a, b, c⟩ := ruleL_bounds r.x r.w dX 1 hx hxw hw
      obtain ⟨d, e, f⟩ := ruleL_bounds r.y r.h dY 1 hy hyh hh
      exact ⟨a, d, b, e, c, f⟩
  | tr =>
      obtain ⟨a, b⟩ := ruleR_bounds r.x r.w dX 1 hxw hw
      obtain ⟨d, e, f⟩ := ruleL_bounds r.y r.h dY 1 hy hyh hh
      exact ⟨hx, d, b, e, a, f⟩
  | bl =>
      obtain ⟨a, b, c⟩ := ruleL_bounds r.x r.w dX 1 hx hxw hw
      obtain ⟨d, e⟩ := ruleR_bounds r.y r.h dY 1 hyh hh
      exact ⟨a, hy, b, e, c, d⟩
  | br =>
      obtain ⟨a, b⟩ := ruleR_bounds r.x r.w dX 1 hxw hw
      obtain ⟨d, e⟩ := ruleR_bounds r.y r.h dY 1 hyh hh
      exact ⟨hx, hy, b, e, a, d⟩

/-- handleMove_preserves: one pointer-move update of the v1.2.0 snapshot
    maps a rectangle satisfying the invariant with minSize 5 to another
    such rectangle, whatever the mode and the delta. -/
theorem handleMove_preserves (r : CropRect) (mode : MoveMode) (dX dY : ℚ)
    (hv : cropValid 5 r) : cropValid 5 (handleMove r mode dX dY) := by
  obtain ⟨hx, hy, hxw, hyh, hw, hh⟩ := hv
  cases mode with
  | move =>
      obtain ⟨a, b⟩ := ruleMove_bounds r.x r.w dX hx hxw
      obtain ⟨c, d⟩ := ruleMove_bounds r.y r.h dY hy hyh
      exact ⟨a, c, b, d, hw, hh⟩
  | br =>
      obtain ⟨a, b⟩ := ruleR_bounds r.x r.w dX 5 hxw hw
      obtain ⟨c, d⟩ := ruleR_bounds r.y r.h dY 5 hyh hh
      exact ⟨hx, hy, b, d, a, c⟩
  | bl =>
      obtain ⟨a, b, c⟩ := ruleE_bounds r.x r.w dX 5 hx hxw hw
      obtain ⟨d, e⟩ := ruleR_bounds r.y r.h dY 5 hyh hh
      exact ⟨a, hy, b, e, c, d⟩
  | tr =>
      obtain ⟨a, b⟩ := ruleR_bounds r.x r.w dX 5 hxw hw
      obtain ⟨c, d, e⟩ := ruleE_bounds r.y r.h dY 5 hy hyh hh
      exact ⟨hx, c, b, d, a, e⟩
  | tl =>
      obtain ⟨a, b, c⟩ := ruleE_bounds r.x r.w dX 5 hx hxw hw
      obtain ⟨d, e, f⟩ := ruleE_bounds r.y r.h dY 5 hy hyh hh
      exact ⟨a, d, b, e, c, f⟩
  | r =>
      obtain ⟨a, b⟩ := ruleR_bounds r.x r.w dX 5 hxw hw
      exact ⟨hx, hy, b, hyh, a, hh⟩
  | l =>
      obtain ⟨a, b, c⟩ := ruleE_bounds r.x r.w dX 5 hx hxw hw
      exact ⟨a, hy, b, hyh, c, hh⟩
  | b =>
      obtain ⟨a, b⟩ := ruleR_bounds r.y r.h dY 5 hyh hh
      exact ⟨hx, hy, hxw, b, hw, a⟩
  | t =>
      obtain ⟨a, b, c⟩ := ruleE_bounds r.y r.h dY 5 hy hyh hh
      exact ⟨hx, a, hxw, b, hw, c⟩

/-- dragFold_valid: folding any sequence of v2.1.0 updates preserves the
    minSize-1 invariant. -/
theorem dragFold_valid (steps : List (HandleType × ℚ × ℚ)) :
    ∀ init, cropValid 1 init → cropValid 1 (dragFold init steps) := by
  induction steps with
  | nil => exact fun init h => h
  | cons s rest ih =>
      exact fun init h => ih _ (handlePointerMove_preserves init s.1 s.2.1 s.2.2 h)

/-- moveFold_valid: folding any sequence of v1.2.0 updates preserves the
    minSize-5 invariant. -/
theorem moveFold_valid (steps : List (MoveMode × ℚ × ℚ)) :
    ∀ init, cropValid 5 init → cropValid 5 (moveFold init steps) := by
  induction steps with
  | nil => exact fun init h => h
  | cons s rest ih =>
      exact fun init h => ih _ (handleMove_preserves init s.1 s.2.1 s.2.2 h)

/-- C1: every pointer-move update, in every mode of both drag state
    machines (the 8 handles of handlePointerMove and the 9 modes of
    handleMove including move), maps a rectangle satisfying the CropRect
    invariant (within the 0..100 box, at least minSize wide and high, with
    minSize 1 resp. 5 as in the respective source) to a rectangle
    satisfying it again, for every pointer delta; hence every rectangle
    reachable by any sequence of drag updates from the full-frame reset
    satisfies the invariant. -/
theorem c1_crop_invariant :
    (∀ (r : CropRect) (handle : HandleType) (dX dY : ℚ),
        cropValid 1 r → cropValid 1 (handlePointerMove r handle dX dY)) ∧
    (∀ (r : CropRect) (mode : MoveMode) (dX dY : ℚ),
        cropValid 5 r → cropValid 5 (handleMove r mode dX dY)) ∧
    (∀ steps : List (HandleType × ℚ × ℚ), cropValid 1 (dragFold fullFrame steps)) ∧
    (∀ steps : List (MoveMode × ℚ × ℚ), cropValid 5 (moveFold fullFrame steps)) := by
  refine ⟨handlePointerMove_preserves, handleMove_preserves, ?_, ?_⟩
  · exact fun steps => dragFold_valid steps fullFrame (by norm_num [cropValid, fullFrame])
  · exact fun steps => moveFold_valid steps fullFrame (by norm_num [cropValid, fullFrame])

/-- Witness for C1 at concrete inputs. -/
theorem c1_crop_invariant_witness :
    cropValid 1 (CropRect.mk 10 10 50 50) ∧
    cropValid 1 (handlePointerMove (CropRect.mk 10 10 50 50) HandleType.l (-20) 0) ∧
    cropValid 5 (handleMove (CropRect.mk 10 10 50 50) MoveMode.move 70 (-30)) ∧
    cropValid 1 (dragFold fullFrame [(HandleType.l, 30, 0), (HandleType.br, -200, -200)]) :=
  ⟨by norm_num [cropValid],
   c1_crop_invariant.1 (CropRect.mk 10 10 50 50) HandleType.l (-20) 0 (by norm_num [cropValid]),
   c1_crop_invariant.2.1 (CropRect.mk 10 10 50 50) MoveMode.move 70 (-30)
     (by norm_num [cropValid]),
   c1_crop_invariant.2.2.1 [(HandleType.l, 30, 0), (HandleType.br, -200, -200)]⟩

/-- C7: dragging corner tl anchored at the rectangle 10,10,50,50 by the
    percent delta -5,-5 yields 5,5,55,55; and in general the tl update
    applies the left rule and the top rule independently per axis, so the
    opposite right and bottom edge positions x plus w and y plus h are
    unchanged for every anchor and delta. -/
theorem c7_corner_tl :
    handlePointerMove (CropRect.mk 10 10 50 50) HandleType.tl (-5) (-5) =
      CropRect.mk 5 5 55 55 ∧
    ∀ (r : CropRect) (dX dY : ℚ),
      (handlePointerMove r HandleType.tl dX dY).x + (handlePointerMove r HandleType.tl dX dY).w
          = r.x + r.w ∧
      (handlePointerMove r HandleType.tl dX dY).y + (handlePointerMove r HandleType.tl dX dY).h
          = r.y + r.h := by
  constructor
  · norm_num [handlePointerMove, CropRect.mk.injEq, min_def, max_def]
  · intro r dX dY
    constructor <;> simp [handlePointerMove] <;> ring

/-- C8: in move mode both delta-based implementations set the new origin
    to the anchored origin plus the delta, clamped into 0 to 100 minus the
    anchored extent on each axis, and keep w and h exactly equal to the
    anchored values. -/
theorem c8_move_rule (r : CropRect) (dX dY : ℚ) :
    handleMove r MoveMode.move dX dY =
      CropRect.mk (specClamp (r.x + dX) 0 (100 - r.w)) (specClamp (r.y + dY) 0 (100 - r.h))
        r.w r.h ∧
    handleMoveWithMode r dX dY =
      CropRect.mk (specClamp (r.x + dX) 0 (100 - r.w)) (specClamp (r.y + dY) 0 (100 - r.h))
        r.w r.h :=
  ⟨rfl, rfl⟩

/-- dragSession_final: because every move of a session recomputes the
    rectangle from the session anchor, a session consisting of any moves
    followed by a final move with delta d ends at the single update by d. -/
theorem dragSession_final (anchor : CropRect) (handle : HandleType)
    (moves : List (ℚ × ℚ)) (d : ℚ × ℚ) :
    dragSession anchor handle (moves ++ [d]) = handlePointerMove anchor handle d.1 d.2 := by
  unfold dragSession
  rw [List.foldl_append]
  rfl

/-- handlePointerMove_r_id: an r-edge update with zero horizontal delta
    leaves a valid rectangle unchanged. -/
theorem handlePointerMove_r_id (r : CropRect) (hv : cropValid 1 r) (dY : ℚ) :
    handlePointerMove r HandleType.r 0 dY = r := by
  obtain ⟨hx, hy, hxw, hyh, hw, hh⟩ := hv
  obtain ⟨a, b, c, d⟩ := r
  simp only [handlePointerMove, CropRect.mk.injEq, true_and, and_true]
  simp only [CropRect.w] at hw hxw ⊢
  simp only [CropRect.x] at hx hxw ⊢
  rw [add_zero, min_eq_right (by linarith), max_eq_right (by linarith)]

/-- handlePointerMove_l_id: an l-edge update with zero horizontal delta
    leaves a valid rectangle unchanged. -/
theorem handlePointerMove_l_id (r : CropRect) (hv : cropValid 1 r) (dY : ℚ) :
    handlePointerMove r HandleType.l 0 dY = r := by
  obtain ⟨hx, hy, hxw, hyh, hw, hh⟩ := hv
  obtain ⟨a, b, c, d⟩ := r
  simp only [CropRect.x, CropRect.y, CropRect.w, CropRect.h] at hx hy hxw hyh hw hh
  have hx' : min (max 0 (a + 0)) (a + c - 1) = a := by
    rw [add_zero, max_eq_right hx]
    exact min_eq_left (by linarith)
  simp only [handlePointerMove, CropRect.mk.injEq, hx']
  norm_num

/-- C9: crop drag sessions compute every rectangle from the session
    anchor, so a session whose final pointer delta is zero (the dragged
    edge released back at its original position) restores the anchored
    rectangle exactly, whatever excursion the intermediate moves took;
    hence dragging edge r and then edge l, each released back at its
    original position, restores the original x and w (the whole rectangle)
    of any valid starting rectangle — the two edge rules keep no state
    that could interfere. -/
theorem c9_edge_drags_reversible (r : CropRect) (hv : cropValid 1 r)
    (ms1 ms2 : List (ℚ × ℚ)) :
    dragSession (dragSession r HandleType.r (ms1 ++ [(0, 0)])) HandleType.l (ms2 ++ [(0, 0)])
      = r ∧
    (dragSession (dragSession r HandleType.r (ms1 ++ [(0, 0)])) HandleType.l (ms2 ++ [(0, 0)])).x
      = r.x ∧
    (dragSession (dragSession r HandleType.r (ms1 ++ [(0, 0)])) HandleType.l (ms2 ++ [(0, 0)])).w
      = r.w := by
  have h1 : dragSession r HandleType.r (ms1 ++ [(0, 0)]) = r := by
    rw [dragSession_final]
    exact handlePointerMove_r_id r hv 0
  have h2 : dragSession (dragSession r HandleType.r (ms1 ++ [(0, 0)])) HandleType.l
      (ms2 ++ [(0, 0)]) = r := by
    rw [h1, dragSession_final]
    exact handlePointerMove_l_id r hv 0
  exact ⟨h2, by rw [h2], by rw [h2]⟩

/-- Witness for C9 at concrete inputs. -/
theorem c9_edge_drags_reversible_witness :
    cropValid 1 (CropRect.mk 10 10 50 50) ∧
    dragSession (dragSession (CropRect.mk 10 10 50 50) HandleType.r ([(25, 0), (-300, 4)] ++ [(0, 0)]))
        HandleType.l ([(-7, 1)] ++ [(0, 0)]) = CropRect.mk 10 10 50 50 :=
  ⟨by norm_num [cropValid],
   (c9_edge_drags_reversible (CropRect.mk 10 10 50 50) (by norm_num [cropValid])
     [(25, 0), (-300, 4)] [(-7, 1)]).1⟩

/-- C5: committing a crop with the full-frame rectangle 0,0,100,100
    yields a surface with the same width, the same height, and pixel-for-
    pixel identical content. -/
theorem c5_full_frame_crop_id (s : Surface) :
    (applyCrop s (CropRect.mk 0 0 100 100)).width = s.width ∧
    (applyCrop s (CropRect.mk 0 0 100 100)).height = s.height ∧
    ∀ px py, (applyCrop s (CropRect.mk 0 0 100 100)).pix px py = s.pix px py := by
  have h100 : (100 : ℚ) / 100 = 1 := by norm_num
  refine ⟨?_, ?_, ?_⟩
  · show Int.toNat ⌊(100 : ℚ) / 100 * (s.width : ℚ)⌋ = s.width
    rw [h100, one_mul, Int.floor_natCast, Int.toNat_natCast]
  · show Int.toNat ⌊(100 : ℚ) / 100 * (s.height : ℚ)⌋ = s.height
    rw [h100, one_mul, Int.floor_natCast, Int.toNat_natCast]
  · intro px py
    show s.pix (px + Int.toNat ⌊(0 : ℚ) / 100 * (s.width : ℚ)⌋)
           (py + Int.toNat ⌊(0 : ℚ) / 100 * (s.height : ℚ)⌋) = s.pix px py
    norm_num

/-- C4: whenever the clamped sample rectangle of the obfuscation filter
    has nonpositive width or height, applyMosaicEffect returns before any
    read or write, in both modes, leaving the surface exactly unchanged. -/
theorem c4_empty_sample_noop (s : Surface) (x y : ℚ) (size : ℕ) (t : MosaicType)
    (hempty : min ((size : ℚ) * 4) ((s.width : ℚ) - mosaicStart x ((size : ℚ) * 4) t) ≤ 0 ∨
              min ((size : ℚ) * 4) ((s.height : ℚ) - mosaicStart y ((size : ℚ) * 4) t) ≤ 0) :
    applyMosaicEffect s x y size t = s := by
  unfold applyMosaicEffect
  exact if_pos hempty

/-- Witness for C4 at a concrete input: on the 10 by 10 surface a pixel
    mode click at x 50 snaps the sample origin to 48, past the right
    boundary, so the sample width clamps to a negative value and the call
    is a no-op. -/
theorem c4_empty_sample_noop_witness :
    min ((1 : ℕ) * 4 : ℚ) ((smallSurface.width : ℚ) -
        mosaicStart 50 (((1 : ℕ) : ℚ) * 4) MosaicType.pixel) ≤ 0 ∧
    applyMosaicEffect smallSurface 50 5 1 MosaicType.pixel = smallSurface := by
  have h : min (((1 : ℕ) : ℚ) * 4) ((smallSurface.width : ℚ) -
      mosaicStart 50 (((1 : ℕ) : ℚ) * 4) MosaicType.pixel) ≤ 0 := by
    norm_num [mosaicStart, smallSurface]
  exact ⟨h, c4_empty_sample_noop smallSurface 50 5 1 MosaicType.pixel (Or.inl h)⟩

/-- C6: in pixel mode the sample origin, the fill origin and the fill
    size depend on the pointer only through the grid cell indices, so two
    calls with the same brushSize at points in the same effectSize grid
    cell produce identical clamped origins and, on any surface, identical
    results: the whole update (fill bounds included) coincides. -/
theorem c6_grid_cell_determinism (s : Surface) (x1 y1 x2 y2 : ℚ) (size : ℕ)
    (hx : ⌊x1 / ((size : ℚ) * 4)⌋ = ⌊x2 / ((size : ℚ) * 4)⌋)
    (hy : ⌊y1 / ((size : ℚ) * 4)⌋ = ⌊y2 / ((size : ℚ) * 4)⌋) :
    mosaicStart x1 ((size : ℚ) * 4) MosaicType.pixel
      = mosaicStart x2 ((size : ℚ) * 4) MosaicType.pixel ∧
    mosaicStart y1 ((size : ℚ) * 4) MosaicType.pixel
      = mosaicStart y2 ((size : ℚ) * 4) MosaicType.pixel ∧
    applyMosaicEffect s x1 y1 size MosaicType.pixel
      = applyMosaicEffect s x2 y2 size MosaicType.pixel := by
  have h1 : mosaicStart x1 ((size : ℚ) * 4) MosaicType.pixel
      = mosaicStart x2 ((size : ℚ) * 4) MosaicType.pixel := by
    simp only [mosaicStart]
    rw [hx]
  have h2 : mosaicStart y1 ((size : ℚ) * 4) MosaicType.pixel
      = mosaicStart y2 ((size : ℚ) * 4) MosaicType.pixel := by
    simp only [mosaicStart]
    rw [hy]
  refine ⟨h1, h2, ?_⟩
  simp only [applyMosaicEffect]
  rw [h1, h2]

/-- Witness for C6 at concrete inputs: with brushSize 20 the grid pitch is
    80, and the points 10,20 and 70,75 share the cell with indices 0,0. -/
theorem c6_grid_cell_determinism_witness :
    ⌊(10 : ℚ) / (((20 : ℕ) : ℚ) * 4)⌋ = ⌊(70 : ℚ) / (((20 : ℕ) : ℚ) * 4)⌋ ∧
    applyMosaicEffect demoSurface 10 20 20 MosaicType.pixel
      = applyMosaicEffect demoSurface 70 75 20 MosaicType.pixel :=
  ⟨by norm_num,
   (c6_grid_cell_determinism demoSurface 10 20 70 75 20 (by norm_num) (by norm_num)).2.2⟩

/-- C3: with an original surface present, the eraser makes every pixel
    inside the disk of radius brushSize times 5 around the pointer
    bit-identical to the original surface at the same coordinates and
    leaves every pixel outside it unchanged; with no original surface the
    whole bitmap surface is unchanged. -/
theorem c3_eraser_restores (bmp o : Surface) (x y : ℚ) (brushSize : ℕ) (px py : ℕ) :
    (((px : ℚ) - x) ^ 2 + ((py : ℚ) - y) ^ 2 ≤ ((brushSize * 5 : ℕ) : ℚ) ^ 2 →
        (eraserDraw bmp (some o) x y brushSize).pix px py = o.pix px py) ∧
    (¬ (((px : ℚ) - x) ^ 2 + ((py : ℚ) - y) ^ 2 ≤ ((brushSize * 5 : ℕ) : ℚ) ^ 2) →
        (eraserDraw bmp (some o) x y brushSize).pix px py = bmp.pix px py) ∧
    eraserDraw bmp none x y brushSize = bmp := by
  refine ⟨fun hin => ?_, fun hout => ?_, rfl⟩
  · exact if_pos hin
  · exact if_neg hout

/-- Witness for C3 at a concrete input: the pixel at the pointer itself
    lies in the disk and takes the original color. -/
theorem c3_eraser_restores_witness :
    (((5 : ℕ) : ℚ) - 5) ^ 2 + (((5 : ℕ) : ℚ) - 5) ^ 2 ≤ (((1 : ℕ) * 5 : ℕ) : ℚ) ^ 2 ∧
    (eraserDraw smallSurface (some origSurface) 5 5 1).pix 5 5 = origSurface.pix 5 5 :=
  ⟨by norm_num,
   (c3_eraser_restores smallSurface origSurface 5 5 1 5 5).1 (by norm_num)⟩

/-- mosaicStart_pixel_eq: for a nonnegative coordinate the clamp of the
    grid-snapped sample origin is a no-op, so the origin is exactly
    floor of the coordinate over the pitch, times the pitch. -/
theorem mosaicStart_pixel_eq (x es : ℚ) (hx : 0 ≤ x) (hes : 0 ≤ es) :
    mosaicStart x es MosaicType.pixel = (⌊x / es⌋ : ℚ) * es := by
  have h0 : (0 : ℚ) ≤ (⌊x / es⌋ : ℚ) * es := by
    have hf : (0 : ℤ) ≤ ⌊x / es⌋ := Int.le_floor.2 (by simpa using div_nonneg hx hes)
    exact mul_nonneg (by exact_mod_cast hf) hes
  simp only [mosaicStart]
  rw [if_neg (not_lt.2 h0)]

/-- C2: in pixel mode with nonnegative pointer coordinates the clamped
    sample origin is the grid snap floor of v over effectSize, times
    effectSize, on each axis; and when the clamped sample rectangle of
    size min of effectSize and surface extent minus origin is non-empty,
    the result keeps the surface dimensions and its pixels are the flat
    color averaged by the stride-16 loop over that sample rectangle inside
    the full effectSize by effectSize square at the origin, and the old
    pixels outside it. -/
theorem c2_mosaic_pixel_block (s : Surface) (x y : ℚ) (size : ℕ)
    (hx : 0 ≤ x) (hy : 0 ≤ y)
    (hW : 0 < min ((size : ℚ) * 4)
        ((s.width : ℚ) - mosaicStart x ((size : ℚ) * 4) MosaicType.pixel))
    (hH : 0 < min ((size : ℚ) * 4)
        ((s.height : ℚ) - mosaicStart y ((size : ℚ) * 4) MosaicType.pixel))
    (px py : ℕ) :
    mosaicStart x ((size : ℚ) * 4) MosaicType.pixel
      = (⌊x / ((size : ℚ) * 4)⌋ : ℚ) * ((size : ℚ) * 4) ∧
    mosaicStart y ((size : ℚ) * 4) MosaicType.pixel
      = (⌊y / ((size : ℚ) * 4)⌋ : ℚ) * ((size : ℚ) * 4) ∧
    (applyMosaicEffect s x y size MosaicType.pixel).width = s.width ∧
    (applyMosaicEffect s x y size MosaicType.pixel).height = s.height ∧
    (applyMosaicEffect s x y size MosaicType.pixel).pix px py =
      (if mosaicStart x ((size : ℚ) * 4) MosaicType.pixel ≤ (px : ℚ) ∧
          (px : ℚ) < mosaicStart x ((size : ℚ) * 4) MosaicType.pixel + (size : ℚ) * 4 ∧
          mosaicStart y ((size : ℚ) * 4) MosaicType.pixel ≤ (py : ℚ) ∧
          (py : ℚ) < mosaicStart y ((size : ℚ) * 4) MosaicType.pixel + (size : ℚ) * 4
       then
         { r := (mosaicColor (imageData s
                   (Int.toNat ⌊mosaicStart x ((size : ℚ) * 4) MosaicType.pixel⌋)
                   (Int.toNat ⌊mosaicStart y ((size : ℚ) * 4) MosaicType.pixel⌋)
                   (Int.toNat ⌊min ((size : ℚ) * 4)
                     ((s.width : ℚ) - mosaicStart x ((size : ℚ) * 4) MosaicType.pixel)⌋)
                   (Int.toNat ⌊min ((size : ℚ) * 4)
                     ((s.height : ℚ) - mosaicStart y ((size : ℚ) * 4) MosaicType.pixel)⌋))).1,
           g := (mosaicColor (imageData s
                   (Int.toNat ⌊mosaicStart x ((size : ℚ) * 4) MosaicType.pixel⌋)
                   (Int.toNat ⌊mosaicStart y ((size : ℚ) * 4) MosaicType.pixel⌋)
                   (Int.toNat ⌊min ((size : ℚ) * 4)
                     ((s.width : ℚ) - mosaicStart x ((size : ℚ) * 4) MosaicType.pixel)⌋)
                   (Int.toNat ⌊min ((size : ℚ) * 4)
                     ((s.height : ℚ) - mosaicStart y ((size : ℚ) * 4) MosaicType.pixel)⌋))).2.1,
           b := (mosaicColor (imageData s
                   (Int.toNat ⌊mosaicStart x ((size : ℚ) * 4) MosaicType.pixel⌋)
                   (Int.toNat ⌊mosaicStart y ((size : ℚ) * 4) MosaicType.pixel⌋)
                   (Int.toNat ⌊min ((size : ℚ) * 4)
                     ((s.width : ℚ) - mosaicStart x ((size : ℚ) * 4) MosaicType.pixel)⌋)
                   (Int.toNat ⌊min ((size : ℚ) * 4)
                     ((s.height : ℚ) - mosaicStart y ((size : ℚ) * 4) MosaicType.pixel)⌋))).2.2,
           a := 255 }
       else s.pix px py) := by
  have hes : (0 : ℚ) ≤ (size : ℚ) * 4 := by positivity
  have hguard : ¬ (min ((size : ℚ) * 4)
        ((s.width : ℚ) - mosaicStart x ((size : ℚ) * 4) MosaicType.pixel) ≤ 0 ∨
      min ((size : ℚ) * 4)
        ((s.height : ℚ) - mosaicStart y ((size : ℚ) * 4) MosaicType.pixel) ≤ 0) := by
    push_neg
    exact ⟨hW, hH⟩
  refine ⟨mosaicStart_pixel_eq x ((size : ℚ) * 4) hx hes,
          mosaicStart_pixel_eq y ((size : ℚ) * 4) hy hes, ?_, ?_, ?_⟩
  · show (applyMosaicEffect s x y size MosaicType.pixel).width = s.width
    simp only [applyMosaicEffect]
    rw [if_neg hguard]
  · show (applyMosaicEffect s x y size MosaicType.pixel).height = s.height
    simp only [applyMosaicEffect]
    rw [if_neg hguard]
  · simp only [applyMosaicEffect]
    rw [if_neg hguard]

/-- Witness for C2 at the scenario input: a 200 by 100 surface, brushSize
    20 (effectSize 80), click at 50,30; the origin snaps to 0,0 and the
    sample is non-empty, so the theorem applies. -/
theorem c2_mosaic_pixel_block_witness :
    (0 : ℚ) ≤ 50 ∧ (0 : ℚ) ≤ 30 ∧
    0 < min (((20 : ℕ) : ℚ) * 4) ((demoSurface.width : ℚ) -
        mosaicStart 50 (((20 : ℕ) : ℚ) * 4) MosaicType.pixel) ∧
    0 < min (((20 : ℕ) : ℚ) * 4) ((demoSurface.height : ℚ) -
        mosaicStart 30 (((20 : ℕ) : ℚ) * 4) MosaicType.pixel) ∧
    mosaicStart 50 (((20 : ℕ) : ℚ) * 4) MosaicType.pixel
      = (⌊(50 : ℚ) / (((20 : ℕ) : ℚ) * 4)⌋ : ℚ) * (((20 : ℕ) : ℚ) * 4) ∧
    (applyMosaicEffect demoSurface 50 30 20 MosaicType.pixel).width = demoSurface.width :=
  ⟨by norm_num, by norm_num,
   by norm_num [mosaicStart, demoSurface],
   by norm_num [mosaicStart, demoSurface],
   (c2_mosaic_pixel_block demoSurface 50 30 20 (by norm_num) (by norm_num)
      (by norm_num [mosaicStart, demoSurface]) (by norm_num [mosaicStart, demoSurface]) 0 0).1,
   (c2_mosaic_pixel_block demoSurface 50 30 20 (by norm_num) (by norm_num)
      (by norm_num [mosaicStart, demoSurface]) (by norm_num [mosaicStart, demoSurface]) 0 0).2.2.1⟩

/-- byteSurface states that every channel of every pixel of a surface is
    a byte value, as the canvas Uint8ClampedArray guarantees. -/
def byteSurface (s : Surface) : Prop :=
  ∀ px py, (s.pix px py).r ≤ 255 ∧ (s.pix px py).g ≤ 255 ∧
    (s.pix px py).b ≤ 255 ∧ (s.pix px py).a ≤ 255

/-- imageData_length: the ImageData of a w by h rectangle has 4 w h
    entries. -/
theorem imageData_length (s : Surface) (sx sy w h : ℕ) :
    (imageData s sx sy w h).length = 4 * (w * h) := by
  unfold imageData
  rw [List.length_flatMap]
  have hmap : (List.range (w * h)).map
      (List.length ∘ fun p =>
        [(s.pix (sx + p % w) (sy + p / w)).r,
         (s.pix (sx + p % w) (sy + p / w)).g,
         (s.pix (sx + p % w) (sy + p / w)).b,
         (s.pix (sx + p % w) (sy + p / w)).a])
      = (List.range (w * h)).map (fun _ => 4) := rfl
  rw [hmap, List.map_const', List.sum_replicate, List.length_range, smul_eq_mul, mul_comm]

/-- imageData_le: on a byte surface every ImageData entry is a byte. -/
theorem imageData_le (s : Surface) (hs : byteSurface s) (sx sy w h : ℕ) :
    ∀ v ∈ imageData s sx sy w h, v ≤ 255 := by
  intro v hv
  unfold imageData at hv
  rw [List.mem_flatMap] at hv
  obtain ⟨p, _, hv⟩ := hv
  obtain ⟨h1, h2, h3, h4⟩ := hs (sx + p % w) (sy + p / w)
  simp only [List.mem_cons, List.not_mem_nil, or_false] at hv
  rcases hv with rfl | rfl | rfl | rfl
  · exact h1
  · exact h2
  · exact h3
  · exact h4

/-- getD_le: reading a byte list with default 0 always yields a byte. -/
theorem getD_le (l : List ℕ) (hl : ∀ v ∈ l, v ≤ 255) (i : ℕ) : l.getD i 0 ≤ 255 := by
  by_cases hi : i < l.length
  · rw [List.getD_eq_getElem l 0 hi]
    exact hl _ (List.getElem_mem hi)
  · rw [List.getD_eq_default l 0 (le_of_not_lt hi)]
    exact Nat.zero_le 255

/-- strideStep is the loop body of the stride-16 averaging loop, over an
    iteration index. -/
def strideStep (data : List ℕ) (acc : ℕ × ℕ × ℕ × ℕ) (k : ℕ) : ℕ × ℕ × ℕ × ℕ :=
  (acc.1 + data.getD (16 * k) 0,
   acc.2.1 + data.getD (16 * k + 1) 0,
   acc.2.2.1 + data.getD (16 * k + 2) 0,
   acc.2.2.2 + 1)

/-- strideChannels_eq_foldl: strideChannels is the fold of strideStep
    over the iteration indices. -/
theorem strideChannels_eq_foldl (data : List ℕ) :
    strideChannels data
      = (List.range ((data.length + 15) / 16)).foldl (strideStep data) (0, 0, 0, 0) := rfl

/-- strideFold_count: the count component of the averaging fold adds one
    per iteration. -/
theorem strideFold_count (data : List ℕ) (l : List ℕ) :
    ∀ acc : ℕ × ℕ × ℕ × ℕ,
      (l.foldl (strideStep data) acc).2.2.2 = acc.2.2.2 + l.length := by
  induction l with
  | nil => intro acc; simp
  | cons a t ih =>
      intro acc
      rw [List.foldl_cons, ih]
      simp only [strideStep, List.length_cons]
      omega

/-- strideFold_bound: along the averaging fold each channel sum stays at
    most 255 times the count, when every data entry is a byte. -/
theorem strideFold_bound (data : List ℕ) (hd : ∀ i, data.getD i 0 ≤ 255) (l : List ℕ) :
    ∀ acc : ℕ × ℕ × ℕ × ℕ,
      acc.1 ≤ 255 * acc.2.2.2 → acc.2.1 ≤ 255 * acc.2.2.2 → acc.2.2.1 ≤ 255 * acc.2.2.2 →
      (l.foldl (strideStep data) acc).1 ≤ 255 * (l.foldl (strideStep data) acc).2.2.2 ∧
      (l.foldl (strideStep data) acc).2.1 ≤ 255 * (l.foldl (strideStep data) acc).2.2.2 ∧
      (l.foldl (strideStep data) acc).2.2.1 ≤ 255 * (l.foldl (strideStep data) acc).2.2.2 := by
  induction l with
  | nil => exact fun acc h1 h2 h3 => ⟨h1, h2, h3⟩
  | cons a t ih =>
      intro acc h1 h2 h3
      rw [List.foldl_cons]
      have b1 := hd (16 * a)
      have b2 := hd (16 * a + 1)
      have b3 := hd (16 * a + 2)
      exact ih (strideStep data acc a)
        (by simp only [strideStep]; omega)
        (by simp only [strideStep]; omega)
        (by simp only [strideStep]; omega)

/-- C10: on a byte surface, for every non-empty sample rectangle, the
    stride-16 loop runs at least once so the count is positive (the
    guarded division can never divide by zero), and the resulting fill
    channels are integer means bounded by 255, so the rgb fill color is
    well formed. -/
theorem c10_fill_color_bytes (s : Surface) (hs : byteSurface s)
    (sx sy w h : ℕ) (hw : 0 < w) (hh : 0 < h) :
    0 < (strideChannels (imageData s sx sy w h)).2.2.2 ∧
    (mosaicColor (imageData s sx sy w h)).1 ≤ 255 ∧
    (mosaicColor (imageData s sx sy w h)).2.1 ≤ 255 ∧
    (mosaicColor (imageData s sx sy w h)).2.2 ≤ 255 := by
  have hlen : (imageData s sx sy w h).length = 4 * (w * h) := imageData_length s sx sy w h
  have hcount : (strideChannels (imageData s sx sy w h)).2.2.2
      = ((imageData s sx sy w h).length + 15) / 16 := by
    rw [strideChannels_eq_foldl, strideFold_count, List.length_range]
    simp
  have hpos : 0 < (strideChannels (imageData s sx sy w h)).2.2.2 := by
    rw [hcount, hlen]
    have hwh : 1 ≤ w * h := Nat.one_le_iff_ne_zero.2 (Nat.mul_ne_zero hw.ne.symm hh.ne.symm)
    exact Nat.div_pos (by omega) (by norm_num)
  have hb := strideFold_bound (imageData s sx sy w h)
    (getD_le _ (imageData_le s hs sx sy w h))
    (List.range (((imageData s sx sy w h).length + 15) / 16)) (0, 0, 0, 0)
    (by simp) (by simp) (by simp)
  rw [← strideChannels_eq_foldl] at hb
  obtain ⟨hb1, hb2, hb3⟩ := hb
  have hdiv : ∀ n : ℕ, n ≤ 255 * (strideChannels (imageData s sx sy w h)).2.2.2 →
      n / (strideChannels (imageData s sx sy w h)).2.2.2 ≤ 255 := by
    intro n hn
    calc n / (strideChannels (imageData s sx sy w h)).2.2.2
        ≤ 255 * (strideChannels (imageData s sx sy w h)).2.2.2 /
            (strideChannels (imageData s sx sy w h)).2.2.2 := Nat.div_le_div_right hn
      _ = 255 := Nat.mul_div_cancel 255 hpos
  refine ⟨hpos, ?_, ?_, ?_⟩ <;>
    · unfold mosaicColor
      rw [if_pos hpos]
      first
        | exact hdiv _ hb1
        | exact hdiv _ hb2
        | exact hdiv _ hb3

/-- smallSurface_bytes: the constant 10 by 10 surface has byte
    channels. -/
theorem smallSurface_bytes : byteSurface smallSurface := by
  intro px py
  refine ⟨?_, ?_, ?_, ?_⟩ <;> norm_num [smallSurface]

/-- Witness for C10 at a concrete input: a 2 by 2 sample on the constant
    10 by 10 surface. -/
theorem c10_fill_color_bytes_witness :
    (0 : ℕ) < 2 ∧
    0 < (strideChannels (imageData smallSurface 0 0 2 2)).2.2.2 ∧
    (mosaicColor (imageData smallSurface 0 0 2 2)).1 ≤ 255 :=
  ⟨by decide,
   (c10_fill_color_bytes smallSurface smallSurface_bytes 0 0 2 2
      (by decide) (by decide)).1,
   (c10_fill_color_bytes smallSurface smallSurface_bytes 0 0 2 2
      (by decide) (by decide)).2.1⟩

end PhotoEditor
